import Mathlib

/-!
Verification of the Musicsloth audio engine (src-tauri/src/audio and
src-tauri/src/metadata) against its specification.

The Rust source is shallowly embedded:
* `f32`/`f64` values are modelled as exact rationals (`ℚ`) where the code
  performs only field operations (every float is a rational, and the
  claims under scrutiny concern the algebraic shape of the computation),
  and as real numbers (`ℝ`) where the code calls `powf`/`log10`;
* fallible Rust functions returning `Result` become `Except String`;
* the shared mutable cells of `Player` become record fields, and each
  setter becomes a pure state transformer.
-/

namespace Musicsloth

/-- Rust `x.clamp(lo, hi)` on rationals (for `lo ≤ hi` the Rust semantics
agree with `min (max x lo) hi`). -/
def rustClampQ (x lo hi : ℚ) : ℚ := min (max x lo) hi

/-- Rust `x.clamp(lo, hi)` on reals. -/
noncomputable def rustClamp (x lo hi : ℝ) : ℝ := min (max x lo) hi

/-! ### Decoder sample-format conversion (decoder.rs, `audio_buf_to_f32`)

Each branch of `audio_buf_to_f32` applies one scalar conversion to every
sample of the decoded buffer; we embed the nine scalar conversions.
Integer sample values are taken in `ℤ`, float samples in `ℚ`. -/

/-- decoder.rs:161-163 — `s as f32 * (1.0 / 128.0)` for `i8` samples. -/
def convS8 (s : ℤ) : ℚ := (s : ℚ) * (1 / 128)

/-- decoder.rs:165-167 — `s as f32 * (1.0 / 32768.0)` for `i16` samples. -/
def convS16 (s : ℤ) : ℚ := (s : ℚ) * (1 / 32768)

/-- decoder.rs:169-171 — `s.inner() as f32 * (1.0 / 8388608.0)` for 24-bit
signed samples (the `inner` `i32` carries the 24-bit value). -/
def convS24 (s : ℤ) : ℚ := (s : ℚ) * (1 / 8388608)

/-- decoder.rs:173-175 — `s as f32 * (1.0 / 2147483648.0)` for `i32` samples. -/
def convS32 (s : ℤ) : ℚ := (s : ℚ) * (1 / 2147483648)

/-- decoder.rs:177-179 — `(s as f32 - 128.0) / 128.0` for `u8` samples. -/
def convU8 (s : ℤ) : ℚ := ((s : ℚ) - 128) / 128

/-- decoder.rs:180-182 — `(s as f32 - 32768.0) / 32768.0` for `u16` samples. -/
def convU16 (s : ℤ) : ℚ := ((s : ℚ) - 32768) / 32768

/-- decoder.rs:183-185 — `(s.inner() as f32 - 8388608.0) / 8388608.0` for
24-bit unsigned samples. -/
def convU24 (s : ℤ) : ℚ := ((s : ℚ) - 8388608) / 8388608

/-- decoder.rs:186-188 — `(s as f64 - 2147483648.0) as f32 / 2147483648.0`
for `u32` samples. -/
def convU32 (s : ℤ) : ℚ := ((s : ℚ) - 2147483648) / 2147483648

/-- decoder.rs:158-160 — `s as f32` for `f64` samples (no rescaling). -/
def convF64 (s : ℚ) : ℚ := s

/-! ### Decoder packet loop (decoder.rs, `decode_next`)

The loop body of `decode_next` is driven by the sequence of outcomes that
`format.next_packet()` / `decoder.decode(..)` produce.  We embed that
sequence as a list of events and the loop as structural recursion over it;
the model additionally counts `decoder.reset()` calls so the
`ResetRequired` path is observable.  An empty event list (which the real
stream never produces: `next_packet` always yields an outcome) is mapped
to an out-of-model error and is not used by any theorem. -/

/-- Outcome of `self.decoder.decode(&packet)` for one packet. -/
inductive DecodeOutcome where
  | ok (samples : List ℚ)
  | decodeErr (msg : String)
  | fatal (msg : String)
deriving DecidableEq

/-- Outcome of one `self.format.next_packet()` call. -/
inductive PacketEvent where
  | packet (track_id : Nat) (outcome : DecodeOutcome)
  | eofUnexpected
  | resetRequired
  | readErr (msg : String)
deriving DecidableEq

/-- decoder.rs:95-129 — the `decode_next` loop.  `tid` is `self.track_id`,
`resets` counts `self.decoder.reset()` calls performed so far; the result
pairs the returned value with the final reset count. -/
def decode_next (tid : Nat) : Nat → List PacketEvent → Except String (Option (List ℚ)) × Nat
  | resets, [] => (Except.error ("out of model: event stream exhausted"), resets)
  | resets, PacketEvent.eofUnexpected :: _ => (Except.ok none, resets)
  | resets, PacketEvent.resetRequired :: rest => decode_next tid (resets + 1) rest
  | resets, PacketEvent.readErr msg :: _ =>
      (Except.error ("Failed to read packet: " ++ msg), resets)
  | resets, PacketEvent.packet ptid outcome :: rest =>
      if ptid ≠ tid then decode_next tid resets rest
      else
        match outcome with
        | DecodeOutcome.ok samples => (Except.ok (some samples), resets)
        | DecodeOutcome.decodeErr _ => decode_next tid resets rest
        | DecodeOutcome.fatal msg => (Except.error ("Decode failed: " ++ msg), resets)

/-! ### Channel-count adaptation (player.rs, lines 377-427) -/

/-- player.rs:404-427 — `Player::convert_channels` on interleaved samples.
The two source branches for `out_ch ≥ input_channels` (mono duplication and
the general case) both push `samples[frame * input_channels]`, i.e. the
frame value of the first input channel. -/
def convert_channels (samples : List ℚ) (input_channels output_channels : Nat) : List ℚ :=
  if input_channels = output_channels then samples
  else
    (List.range (samples.length / input_channels)).flatMap fun frame =>
      (List.range output_channels).map fun out_ch =>
        if out_ch < input_channels then samples.getD (frame * input_channels + out_ch) 0
        else samples.getD (frame * input_channels) 0

/-- player.rs:377-401 — `Player::interleave_and_convert_channels` on planar
samples.  As in the interleaved variant, both source branches for
`out_ch ≥ planar.len()` push `planar[0][frame]`. -/
def interleave_and_convert_channels (planar : List (List ℚ)) (output_channels : Nat) : List ℚ :=
  if planar = [] ∨ planar.headI = [] then []
  else
    (List.range planar.headI.length).flatMap fun frame =>
      (List.range output_channels).map fun out_ch =>
        if out_ch < planar.length then (planar.getD out_ch []).getD frame 0
        else (planar.getD 0 []).getD frame 0

/-! ### Output volume path (player.rs:261-271 and output.rs:166-168) -/

/-- output.rs:166-168 — `AudioOutput::set_volume` stores `vol.clamp(0.0, 1.0)`;
this is the volume the audio callback multiplies into every sample. -/
def output_volume_after_set (vol : ℚ) : ℚ := rustClampQ vol 0 1

/-- player.rs:264-268 — the per-iteration normalization factor:
`track_gain` when normalization is enabled, `1.0` otherwise. -/
def loop_norm_gain (normalization_enabled : Bool) (track_gain : ℚ) : ℚ :=
  if normalization_enabled then track_gain else 1

/-- player.rs:270 — `(user_vol * norm_gain).min(1.0)`. -/
def combined_volume (user_vol norm_gain : ℚ) : ℚ := min (user_vol * norm_gain) 1

/-- player.rs:261-271 — the gain in force at the output after one loop
iteration publishes the combined volume via `output.set_volume`. -/
def applied_gain (user_vol track_gain : ℚ) (normalization_enabled : Bool) : ℚ :=
  output_volume_after_set
    (combined_volume user_vol (loop_norm_gain normalization_enabled track_gain))

/-! ### Seek handling inside the playback loop (player.rs:238-258) -/

/-- Playback-loop state touched by the seek-request handler. -/
structure LoopState where
  samples_decoded : ℤ
  position_ms : ℤ
  input_buffer : List (List ℚ)
  resampler_was_reset : Bool
  output_cleared : Bool
deriving DecidableEq

/-- player.rs:222 — `(input_sample_rate * input_channels) / 1000.0`. -/
def samples_per_ms (sample_rate channels : Nat) : ℚ :=
  ((sample_rate : ℚ) * (channels : ℚ)) / 1000

/-- decoder.rs:148 — the actual position returned by `AudioDecoder::seek`:
`(seeked_to.actual_ts as f64 / self.sample_rate as f64 * 1000.0) as u64`
(truncation of a nonnegative value, i.e. the floor). -/
def decoder_seek_actual_ms (actual_ts sample_rate : Nat) : Nat :=
  (Int.floor ((actual_ts : ℚ) / (sample_rate : ℚ) * 1000)).toNat

/-- player.rs:238-258 — the seek-request branch at the top of each loop
iteration.  `seekFn` stands for `decoder.seek`; `spms` is
`samples_per_ms`; `seek_pos` is the value swapped out of `seek_request`.
On success the handler stores the achieved position, recomputes
`samples_decoded` (Rust truncates the nonnegative product with `as i64`,
i.e. takes the floor), clears the per-channel input buffers, resets the
resampler and clears the output ring buffer; on failure it only logs. -/
def handle_seek_request (seekFn : ℤ → Except String Nat) (spms : ℚ)
    (st : LoopState) (seek_pos : ℤ) : LoopState :=
  if 0 ≤ seek_pos then
    match seekFn seek_pos with
    | Except.ok actual =>
        { st with
          position_ms := (actual : ℤ)
          samples_decoded := Int.floor ((actual : ℚ) * spms)
          input_buffer := st.input_buffer.map fun _ => ([] : List ℚ)
          resampler_was_reset := true
          output_cleared := true }
    | Except.error _ => st
  else st

/-! ### Player state and `stop` (player.rs:28-61 and 440-457) -/

/-- The fields of `Player` (player.rs:28-61); the thread handle is reduced
to its presence and the current file to its display string. -/
structure Player where
  is_playing : Bool
  is_paused : Bool
  should_stop : Bool
  position_ms : ℤ
  duration_ms : ℤ
  volume_db : ℝ
  volume_linear : ℝ
  track_gain_db : ℝ
  track_gain_linear : ℝ
  normalization_enabled : Bool
  current_file : Option String
  seek_request : ℤ
  playback_thread : Option Unit
  track_ended : Bool

/-- player.rs:440-457 — `Player::stop`: sets `should_stop`, forces
`is_paused := false`, joins and drops the playback thread, then resets the
session fields.  The net effect of the writes `stop` itself performs is
recorded here (the joined thread concurrently writes `is_playing` and
`track_ended` from its own exit path, which is outside this per-call
model). -/
def Player.stop (p : Player) : Player :=
  { p with
    is_playing := false
    is_paused := false
    should_stop := false
    current_file := none
    position_ms := 0
    duration_ms := 0
    playback_thread := none }

/-! ### Volume setters (player.rs:464-492)

The pair of shared cells `volume_db` / `volume_linear` is embedded as a
record; each setter is the pure function computing the values both cells
hold after the call (the source writes them under its locks). -/

/-- The `volume_db` / `volume_linear` pair of `Player`. -/
structure VolumeState where
  volume_db : ℝ
  volume_linear : ℝ

/-- player.rs:468-478 — `Player::set_volume_db`: clamps to `[-60, 15]`,
stores the clamped dB value, and stores `10^(dB/20)` as the linear gain
except that any clamped value `≤ -60` is stored as linear `0.0` (mute). -/
noncomputable def set_volume_db (db : ℝ) : VolumeState :=
  let db_clamped := rustClamp db (-60) 15
  { volume_db := db_clamped
    volume_linear := if db_clamped ≤ -60 then 0 else (10 : ℝ) ^ (db_clamped / 20) }

/-- player.rs:482-492 — `Player::set_volume`: clamps the linear gain to
`[0, 5.623]`, derives `dB = 20 * log10(linear)` (with values `≤ 0.001`
treated as mute, `-60` dB), clamps the dB value to `[-60, 15]`, and stores
the clamped linear gain unchanged. -/
noncomputable def set_volume (linear : ℝ) : VolumeState :=
  let linear_clamped := rustClamp linear 0 5.623
  let db := if linear_clamped ≤ 0.001 then (-60 : ℝ) else 20 * Real.logb 10 linear_clamped
  { volume_db := rustClamp db (-60) 15
    volume_linear := linear_clamped }

/-! ### Loudness gain computation (loudness.rs:106-113) -/

/-- loudness.rs:11 — target integrated loudness. -/
def TARGET_LOUDNESS_LUFS : ℝ := -14

/-- loudness.rs:14 — maximum normalization gain. -/
def MAX_GAIN_DB : ℝ := 12

/-- loudness.rs:17 — minimum normalization gain. -/
def MIN_GAIN_DB : ℝ := -12

/-- loudness.rs:106-113 — the gain computed by `analyze_loudness` (and,
identically, by the sampled and full-with-decoder variants) from the
measured integrated loudness and the measured sample peak in dB:
`raw_gain = target - integrated`, `peak_headroom = -sample_peak_db`,
result `raw_gain.min(peak_headroom).clamp(-12, 12)`. -/
noncomputable def normalization_gain_db (integrated_lufs sample_peak_db : ℝ) : ℝ :=
  let raw_gain := TARGET_LOUDNESS_LUFS - integrated_lufs
  let peak_headroom := -sample_peak_db
  rustClamp (min raw_gain peak_headroom) MIN_GAIN_DB MAX_GAIN_DB

/-! ### Sampled loudness analysis (loudness.rs:130-249)

Decoding and the external EBU R128 meter are beyond the embedding; a
segment of `analyze_loudness_sampled` is characterised by what those
produce for it: whether its seek succeeded, how many samples were
accumulated, and the meter's integrated-loudness reading (`none` when
`loudness_global` fails or returns a non-finite value).  The per-segment
acceptance test, the all-segments-failed error and the power-domain
averaging are embedded faithfully from the source. -/

/-- Observable outcome of one sampled-analysis segment. -/
structure Segment where
  seek_ok : Bool
  samples_decoded : Nat
  measured : Option ℚ
deriving DecidableEq

/-- loudness.rs:170-214 — the LUFS value a segment contributes, if any:
`none` when the seek failed (the segment is skipped before decoding), when
fewer than 400 ms of samples were accumulated
(`sample_rate * channels * 400 / 1000` in integer arithmetic), when the
meter failed, or when the reading is at or below `-70` LUFS. -/
def segment_accepted (sample_rate channels : Nat) (s : Segment) : Option ℚ :=
  if s.seek_ok ∧ sample_rate * channels * 400 / 1000 ≤ s.samples_decoded then
    match s.measured with
    | some lufs => if -70 < lufs then some lufs else none
    | none => none
  else none

/-- loudness.rs:167-215 — the list `segment_lufs` accumulated over the
chosen segments, in order. -/
def accepted_lufs (sample_rate channels : Nat) (segs : List Segment) : List ℚ :=
  segs.filterMap (segment_accepted sample_rate channels)

/-- loudness.rs:130-249 — `analyze_loudness_sampled`, reduced to the
integrated LUFS it reports.  `full` stands for the result of the
full-analysis fallback `analyze_loudness_full_with_decoder` (used for
tracks under the 30 s threshold, loudness.rs:139-141, or with
non-positive usable duration, loudness.rs:146-151); `dur` is
`duration_ms`.  Above the threshold the accepted per-segment LUFS values
are averaged in the linear power domain and converted back
(loudness.rs:217-226). -/
noncomputable def analyze_loudness_sampled (full : Except String ℝ) (dur : ℤ)
    (sample_rate channels : Nat) (segs : List Segment) : Except String ℝ :=
  if dur < 30000 then full
  else if dur - 2 * 5000 - 8000 ≤ 0 then full
  else if accepted_lufs sample_rate channels segs = [] then
    Except.error ("No valid segments could be analyzed")
  else
    Except.ok (10 * Real.logb 10
      (((accepted_lufs sample_rate channels segs).map
          fun lufs => (10 : ℝ) ^ ((lufs : ℝ) / 10)).sum
        / ((accepted_lufs sample_rate channels segs).length : ℝ)))

/-! ## Theorems -/

/-- C4: for every supported non-f32 sample format, the decoder's conversion
to f32 divides by the format's full-scale value (after subtracting the
midpoint for unsigned formats), so full-scale extreme inputs map to
amplitudes in `[-1, 1]` within one quantization step of `±1`; in
particular i16 `-32768` maps to exactly `-1` and `32767` to
`32767/32768`. -/
theorem C4_full_scale_mapping :
    (convS8 (-128) = -1 ∧ convS8 127 = 127 / 128
      ∧ 1 - 1 / 128 ≤ convS8 127 ∧ convS8 127 ≤ 1)
    ∧ (convS16 (-32768) = -1 ∧ convS16 32767 = 32767 / 32768
      ∧ 1 - 1 / 32768 ≤ convS16 32767 ∧ convS16 32767 ≤ 1)
    ∧ (convS24 (-8388608) = -1 ∧ convS24 8388607 = 8388607 / 8388608
      ∧ 1 - 1 / 8388608 ≤ convS24 8388607 ∧ convS24 8388607 ≤ 1)
    ∧ (convS32 (-2147483648) = -1 ∧ convS32 2147483647 = 2147483647 / 2147483648
      ∧ 1 - 1 / 2147483648 ≤ convS32 2147483647 ∧ convS32 2147483647 ≤ 1)
    ∧ (convU8 0 = -1 ∧ convU8 255 = 127 / 128
      ∧ 1 - 1 / 128 ≤ convU8 255 ∧ convU8 255 ≤ 1)
    ∧ (convU16 0 = -1 ∧ convU16 65535 = 32767 / 32768
      ∧ 1 - 1 / 32768 ≤ convU16 65535 ∧ convU16 65535 ≤ 1)
    ∧ (convU24 0 = -1 ∧ convU24 16777215 = 8388607 / 8388608
      ∧ 1 - 1 / 8388608 ≤ convU24 16777215 ∧ convU24 16777215 ≤ 1)
    ∧ (convU32 0 = -1 ∧ convU32 4294967295 = 2147483647 / 2147483648
      ∧ 1 - 1 / 2147483648 ≤ convU32 4294967295 ∧ convU32 4294967295 ≤ 1)
    ∧ (convF64 1 = 1 ∧ convF64 (-1) = -1) := by
  norm_num [convS8, convS16, convS24, convS32, convU8, convU16, convU24, convU32, convF64]

/-- C5: `decode_next` classifies errors as follows — a codec decode error on
a packet of the selected track is skipped and the loop continues with the
next packet (never surfacing to the caller); `ResetRequired` resets the
decoder (reset count increases) and the loop retries; an unexpected EOF
from `next_packet` returns the end-of-stream value `Ok(None)`; any other
packet-read failure, and any non-`DecodeError` decoder failure, is
returned to the caller as an error. -/
theorem C5_decode_next_error_classification :
    (∀ (tid resets : Nat) (msg : String) (rest : List PacketEvent),
      decode_next tid resets (PacketEvent.packet tid (DecodeOutcome.decodeErr msg) :: rest)
        = decode_next tid resets rest)
    ∧ (∀ (tid resets : Nat) (rest : List PacketEvent),
      decode_next tid resets (PacketEvent.resetRequired :: rest)
        = decode_next tid (resets + 1) rest)
    ∧ (∀ (tid resets : Nat) (rest : List PacketEvent),
      decode_next tid resets (PacketEvent.eofUnexpected :: rest) = (Except.ok none, resets))
    ∧ (∀ (tid resets : Nat) (msg : String) (rest : List PacketEvent),
      decode_next tid resets (PacketEvent.readErr msg :: rest)
        = (Except.error ("Failed to read packet: " ++ msg), resets))
    ∧ (∀ (tid resets : Nat) (msg : String) (rest : List PacketEvent),
      decode_next tid resets (PacketEvent.packet tid (DecodeOutcome.fatal msg) :: rest)
        = (Except.error ("Decode failed: " ++ msg), resets)) := by
  refine ⟨?_, ?_, ?_, ?_, ?_⟩ <;> intros <;> simp [decode_next]

/-- C10: `Player::stop` modifies only the playback-session fields
(`is_playing`, `is_paused`, `should_stop`, `current_file`, `position_ms`,
`duration_ms` and the joined thread handle); the volume settings and the
normalization settings survive the call unchanged. -/
theorem C10_stop_frame_effect (p : Player) :
    p.stop.volume_db = p.volume_db
    ∧ p.stop.volume_linear = p.volume_linear
    ∧ p.stop.track_gain_db = p.track_gain_db
    ∧ p.stop.track_gain_linear = p.track_gain_linear
    ∧ p.stop.normalization_enabled = p.normalization_enabled
    ∧ p.stop.seek_request = p.seek_request
    ∧ p.stop.track_ended = p.track_ended
    ∧ p.stop.is_playing = false
    ∧ p.stop.is_paused = false
    ∧ p.stop.should_stop = false
    ∧ p.stop.current_file = none
    ∧ p.stop.position_ms = 0
    ∧ p.stop.duration_ms = 0
    ∧ p.stop.playback_thread = none :=
  ⟨rfl, rfl, rfl, rfl, rfl, rfl, rfl, rfl, rfl, rfl, rfl, rfl, rfl, rfl⟩

/-- C3: on every playback-loop iteration the gain published to the output
equals `min(user_linear_volume * g, 1)` with `g = track_gain_linear` when
normalization is enabled and `g = 1` otherwise, and the effective gain
never exceeds `1`. -/
theorem C3_effective_gain (user_vol track_gain : ℚ) (enabled : Bool)
    (hu : 0 ≤ user_vol) (hg : 0 ≤ track_gain) :
    applied_gain user_vol track_gain enabled
      = min (user_vol * (if enabled then track_gain else 1)) 1
    ∧ applied_gain user_vol track_gain enabled ≤ 1 := by
  have hg' : 0 ≤ (if enabled then track_gain else (1 : ℚ)) := by
    cases enabled
    · simp
    · simpa using hg
  have hx : 0 ≤ user_vol * (if enabled then track_gain else 1) := mul_nonneg hu hg'
  unfold applied_gain output_volume_after_set combined_volume loop_norm_gain rustClampQ
  refine ⟨?_, min_le_right _ 1⟩
  rw [max_eq_left (le_min hx zero_le_one), min_eq_left (min_le_right _ 1)]

/-- Witness for C3 at a concrete boosted input: user volume `1/2` with
track gain `3` and normalization enabled caps at `1`. -/
theorem C3_witness :
    applied_gain (1 / 2) 3 true = 1 ∧ applied_gain (1 / 2) 3 true ≤ 1 := by
  have h := C3_effective_gain (1 / 2) 3 true (by norm_num) (by norm_num)
  refine ⟨?_, h.2⟩
  rw [h.1]; norm_num

/-- C2: the normalization gain computed from measured integrated loudness
`L` and measured sample peak `P` (dB) is
`clamp(min(-14 - L, -P), -12, 12)`; when the peak headroom is not the
binding constraint it is `clamp(-14 - L, -12, 12)`. -/
theorem C2_normalization_gain (L P : ℝ) :
    normalization_gain_db L P = min (max (min (-14 - L) (-P)) (-12)) 12
    ∧ (-14 - L ≤ -P → normalization_gain_db L P = min (max (-14 - L) (-12)) 12) := by
  constructor
  · simp only [normalization_gain_db, rustClamp, TARGET_LOUDNESS_LUFS, MIN_GAIN_DB, MAX_GAIN_DB]
  · intro h
    simp only [normalization_gain_db, rustClamp, TARGET_LOUDNESS_LUFS, MIN_GAIN_DB, MAX_GAIN_DB]
    rw [min_eq_left h]

/-- Witness for C2: a track measured at `-20` LUFS with sample peak
`-10` dB gets `+6` dB of gain. -/
theorem C2_witness : normalization_gain_db (-20) (-10) = 6 := by
  have h := (C2_normalization_gain (-20) (-10)).2 (by norm_num)
  rw [h]; norm_num

/-- C1 counterexample: at the clamp boundary `-60` dB the claimed invariant
`volume_linear = 10^(volume_db/20)` fails — `set_volume_db (-60)` stores
`volume_db = -60` and `volume_linear = 0`, while `10^(-60/20) = 1/1000`,
a divergence far beyond floating-point tolerance. -/
theorem C1_counterexample :
    (set_volume_db (-60)).volume_db = -60
    ∧ (set_volume_db (-60)).volume_linear = 0
    ∧ (10 : ℝ) ^ ((set_volume_db (-60)).volume_db / 20) = 1 / 1000
    ∧ (set_volume_db (-60)).volume_linear
        ≠ (10 : ℝ) ^ ((set_volume_db (-60)).volume_db / 20) := by
  have hdb : (set_volume_db (-60)).volume_db = -60 := by
    simp only [set_volume_db, rustClamp]
    norm_num
  have hlin : (set_volume_db (-60)).volume_linear = 0 := by
    simp only [set_volume_db, rustClamp]
    rw [if_pos]
    norm_num
  have hpow : (10 : ℝ) ^ ((set_volume_db (-60)).volume_db / 20) = 1 / 1000 := by
    rw [hdb, show ((-60 : ℝ) / 20) = ((-3 : ℤ) : ℝ) by norm_num, Real.rpow_intCast]
    norm_num
  refine ⟨hdb, hlin, hpow, ?_⟩
  rw [hlin, hpow]
  norm_num

/-- C1 (amended): `set_volume_db x` stores `volume_db = clamp(x, -60, 15)`
always; whenever the clamped value is strictly above the mute floor
(`x > -60`), `volume_linear` equals exactly `10^(volume_db/20)`, while for
`x ≤ -60` the stored linear gain is the deliberate mute value `0` (not
`10^(-3)`).  `set_volume y` stores `volume_linear = clamp(y, 0, 5.623)`
always, and whenever `y` is above the mute threshold (`y > 0.001`) it
keeps `volume_linear = 10^(volume_db/20)`. -/
theorem C1_volume_invariant_amended :
    (∀ x : ℝ, (set_volume_db x).volume_db = rustClamp x (-60) 15)
    ∧ (∀ x : ℝ, -60 < x →
        (set_volume_db x).volume_linear = (10 : ℝ) ^ ((set_volume_db x).volume_db / 20))
    ∧ (∀ x : ℝ, x ≤ -60 → (set_volume_db x).volume_linear = 0)
    ∧ (∀ y : ℝ, (set_volume y).volume_linear = rustClamp y 0 5.623)
    ∧ (∀ y : ℝ, 0.001 < y →
        (set_volume y).volume_linear = (10 : ℝ) ^ ((set_volume y).volume_db / 20)) := by
  refine ⟨fun x => rfl, ?_, ?_, fun y => rfl, ?_⟩
  · intro x hx
    have hmax : max x (-60 : ℝ) = x := max_eq_left hx.le
    have hgt : (-60 : ℝ) < min x 15 := lt_min hx (by norm_num)
    simp only [set_volume_db, rustClamp, hmax]
    rw [if_neg (not_le.mpr hgt)]
  · intro x hx
    have hmax : max x (-60 : ℝ) = -60 := max_eq_right hx
    simp only [set_volume_db, rustClamp, hmax]
    rw [if_pos (by norm_num)]
  · intro y hy
    have hmax : max y (0 : ℝ) = y := max_eq_left (by linarith)
    have hlc : (0.001 : ℝ) < min y 5.623 := lt_min hy (by norm_num)
    have hlcpos : (0 : ℝ) < min y 5.623 := by linarith
    have hmute : ¬ (min y (5.623 : ℝ) ≤ 0.001) := not_le.mpr hlc
    -- the derived dB value is strictly inside the clamp range [-60, 15]
    have hpow34 : (5.623 : ℝ) < (10 : ℝ) ^ ((3 : ℝ) / 4) := by
      have h4 : ((10 : ℝ) ^ ((3 : ℝ) / 4)) ^ (4 : ℕ) = 1000 := by
        rw [← Real.rpow_natCast ((10 : ℝ) ^ ((3 : ℝ) / 4)) 4,
          ← Real.rpow_mul (by norm_num)]
        norm_num
      have hpos : (0 : ℝ) ≤ (10 : ℝ) ^ ((3 : ℝ) / 4) :=
        (Real.rpow_pos_of_pos (by norm_num) _).le
      refine lt_of_pow_lt_pow_left₀ 4 hpos ?_
      rw [h4]
      norm_num
    have hub : Real.logb 10 (min y 5.623) ≤ 3 / 4 :=
      (Real.logb_le_iff_le_rpow (by norm_num) hlcpos).mpr
        ((min_le_right y 5.623).trans hpow34.le)
    have hlb : (-3 : ℝ) < Real.logb 10 (min y 5.623) := by
      rw [Real.lt_logb_iff_rpow_lt (by norm_num) hlcpos,
        show ((-3 : ℝ)) = ((-3 : ℤ) : ℝ) by norm_num, Real.rpow_intCast]
      calc ((10 : ℝ) ^ (-3 : ℤ)) = 0.001 := by norm_num
      _ < min y 5.623 := hlc
    have hdbmax : max (20 * Real.logb 10 (min y 5.623)) (-60 : ℝ) =
        20 * Real.logb 10 (min y 5.623) := max_eq_left (by linarith)
    have hdbmin : min (20 * Real.logb 10 (min y 5.623)) (15 : ℝ) =
        20 * Real.logb 10 (min y 5.623) := min_eq_left (by linarith)
    simp only [set_volume, rustClamp, hmax]
    rw [if_neg hmute, hdbmax, hdbmin,
      show (20 * Real.logb 10 (min y 5.623) / 20) = Real.logb 10 (min y 5.623) by ring,
      Real.rpow_logb (by norm_num) (by norm_num) hlcpos]

/-- Witness for C1 (amended) at concrete inputs `x = 0`, `x = -80`,
`y = 1`. -/
theorem C1_witness :
    (set_volume_db 0).volume_db = rustClamp 0 (-60) 15
    ∧ (set_volume_db 0).volume_linear = (10 : ℝ) ^ ((set_volume_db 0).volume_db / 20)
    ∧ (set_volume_db (-80)).volume_linear = 0
    ∧ (set_volume 1).volume_linear = rustClamp 1 0 5.623
    ∧ (set_volume 1).volume_linear = (10 : ℝ) ^ ((set_volume 1).volume_db / 20) := by
  obtain ⟨h1, h2, h3, h4, h5⟩ := C1_volume_invariant_amended
  exact ⟨h1 0, h2 0 (by norm_num), h3 (-80) (by norm_num), h4 1, h5 1 (by norm_num)⟩

/-- C6: when the playback loop consumes a pending seek request and the
decoder seek succeeds with achieved position `actual`, the loop stores
`position_ms = actual` and recomputes the decoded-sample counter as
`⌊actual * samples_per_ms⌋`; the resulting state depends only on the
achieved position, not on the requested target. -/
theorem C6_seek_uses_achieved_position (seekFn : ℤ → Except String Nat) (spms : ℚ)
    (st : LoopState) (t t' : ℤ) (actual : Nat)
    (ht : 0 ≤ t) (ht' : 0 ≤ t')
    (h1 : seekFn t = Except.ok actual) (h2 : seekFn t' = Except.ok actual) :
    (handle_seek_request seekFn spms st t).position_ms = (actual : ℤ)
    ∧ (handle_seek_request seekFn spms st t).samples_decoded
        = Int.floor ((actual : ℚ) * spms)
    ∧ handle_seek_request seekFn spms st t = handle_seek_request seekFn spms st t' := by
  unfold handle_seek_request
  rw [if_pos ht, if_pos ht', h1, h2]
  exact ⟨rfl, rfl, rfl⟩

/-- Witness for C6: seeking with a decoder landing at sample timestamp
220500 of a 44.1 kHz stereo stream reports 5000 ms and 441000 decoded
samples, whatever position was requested (1234 here, 777 in the unused
second request). -/
theorem C6_witness :
    (handle_seek_request (fun _ => Except.ok (decoder_seek_actual_ms 220500 44100))
        (samples_per_ms 44100 2) ⟨0, 0, [[3], [4]], false, false⟩ 1234).position_ms = 5000
    ∧ (handle_seek_request (fun _ => Except.ok (decoder_seek_actual_ms 220500 44100))
        (samples_per_ms 44100 2) ⟨0, 0, [[3], [4]], false, false⟩ 1234).samples_decoded
      = 441000 := by
  have h := C6_seek_uses_achieved_position
    (fun _ => Except.ok (decoder_seek_actual_ms 220500 44100))
    (samples_per_ms 44100 2) ⟨0, 0, [[3], [4]], false, false⟩ 1234 777
    (decoder_seek_actual_ms 220500 44100) (by norm_num) (by norm_num) rfl rfl
  have hms : decoder_seek_actual_ms 220500 44100 = 5000 := by
    unfold decoder_seek_actual_ms
    norm_num
    rfl
  constructor
  · rw [h.1, hms]
    norm_num
  · rw [h.2.1, hms]
    unfold samples_per_ms
    norm_num

/-- Length of a flatMap over `List.range` whose blocks all have length
`oc`. -/
theorem length_flatMap_range_const {α : Type} (g : Nat → List α) (oc : Nat)
    (hg : ∀ i, (g i).length = oc) :
    ∀ k, ((List.range k).flatMap g).length = k * oc := by
  intro k
  induction k with
  | zero => simp
  | succ n ih =>
    rw [List.range_succ, List.flatMap_append, List.length_append, ih,
      List.flatMap_singleton, hg n, Nat.succ_mul]

/-- Element formula for a flatMap over `List.range` whose blocks all have
length `oc`: position `f * oc + c` reads entry `c` of block `f`. -/
theorem getD_flatMap_range {α : Type} (g : Nat → List α) (oc : Nat) (d : α)
    (hg : ∀ i, (g i).length = oc) :
    ∀ k f c, f < k → c < oc →
      ((List.range k).flatMap g).getD (f * oc + c) d = (g f).getD c d := by
  intro k
  induction k with
  | zero => exact fun f c hf _ => absurd hf (Nat.not_lt_zero f)
  | succ n ih =>
    intro f c hf hc
    rw [List.range_succ, List.flatMap_append, List.flatMap_singleton]
    by_cases hfn : f < n
    · rw [List.getD_append]
      · exact ih f c hfn hc
      · rw [length_flatMap_range_const g oc hg n]
        have h1 : f * oc + c < (f + 1) * oc := by
          rw [Nat.succ_mul]
          omega
        have h2 : (f + 1) * oc ≤ n * oc := Nat.mul_le_mul_right oc hfn
        omega
    · have hfe : f = n := by omega
      subst hfe
      rw [List.getD_append_right]
      · rw [length_flatMap_range_const g oc hg]
        have hsub : f * oc + c - f * oc = c := by omega
        rw [hsub]
      · rw [length_flatMap_range_const g oc hg]
        omega

/-- Element formula for `convert_channels` when the channel counts differ:
output channel `c` of frame `f` copies input channel `c` of frame `f` when
`c < input_channels`, and the frame's first input channel otherwise. -/
theorem convert_channels_getD (samples : List ℚ) (ic oc f c : Nat)
    (hne : ic ≠ oc) (hf : f < samples.length / ic) (hc : c < oc) :
    (convert_channels samples ic oc).getD (f * oc + c) 0
      = if c < ic then samples.getD (f * ic + c) 0 else samples.getD (f * ic) 0 := by
  unfold convert_channels
  rw [if_neg hne,
    getD_flatMap_range _ oc 0 (fun i => by simp) (samples.length / ic) f c hf hc]
  simp [List.getD_eq_getElem?_getD, List.getElem?_map, List.getElem?_range hc]

/-- Element formula for `interleave_and_convert_channels` on non-degenerate
planar input: output channel `c` of frame `f` copies plane `c` at `f` when
`c < planar.length`, and plane `0` at `f` otherwise. -/
theorem interleave_and_convert_channels_getD (planar : List (List ℚ)) (oc f c : Nat)
    (hp : planar ≠ []) (hh : planar.headI ≠ []) (hf : f < planar.headI.length)
    (hc : c < oc) :
    (interleave_and_convert_channels planar oc).getD (f * oc + c) 0
      = if c < planar.length then (planar.getD c []).getD f 0
        else (planar.getD 0 []).getD f 0 := by
  unfold interleave_and_convert_channels
  rw [if_neg (by exact not_or.mpr ⟨hp, hh⟩),
    getD_flatMap_range _ oc 0 (fun i => by simp) planar.headI.length f c hf hc]
  simp [List.getD_eq_getElem?_getD, List.getElem?_map, List.getElem?_range hc]

/-- C7 counterexample: downmixing stereo to mono keeps the FIRST input
channel of each frame (output `[1]`), not — as the claim states, with the
first `N = 1` channels dropped — the second one (`[2]`). -/
theorem C7_counterexample :
    convert_channels [1, 2] 2 1 = [1] ∧ convert_channels [1, 2] 2 1 ≠ [2] := by
  constructor
  · rfl
  · intro h
    have h0 : ((1 : ℚ)) = 2 := congrArg (fun l => l.getD 0 0) h
    norm_num at h0

/-- C7 (amended): upmixing duplicates the first input channel into every
extra output channel and copies the original channels; downmixing keeps
the FIRST `output_channels` input channels of each frame, i.e. drops the
LAST `input_channels - output_channels` channels.  Stated for the
interleaved adapter (`convert_channels`) and the planar adapter
(`interleave_and_convert_channels`). -/
theorem C7_channel_adaptation_amended :
    (∀ (samples : List ℚ) (ic oc f c : Nat), oc < ic → f < samples.length / ic → c < oc →
      (convert_channels samples ic oc).getD (f * oc + c) 0 = samples.getD (f * ic + c) 0)
    ∧ (∀ (samples : List ℚ) (ic oc f c : Nat), ic < oc → f < samples.length / ic → c < ic →
      (convert_channels samples ic oc).getD (f * oc + c) 0 = samples.getD (f * ic + c) 0)
    ∧ (∀ (samples : List ℚ) (ic oc f c : Nat), ic < oc → f < samples.length / ic →
        ic ≤ c → c < oc →
      (convert_channels samples ic oc).getD (f * oc + c) 0 = samples.getD (f * ic) 0)
    ∧ (∀ (planar : List (List ℚ)) (oc f c : Nat), oc < planar.length →
        planar.headI ≠ [] → f < planar.headI.length → c < oc →
      (interleave_and_convert_channels planar oc).getD (f * oc + c) 0
        = (planar.getD c []).getD f 0)
    ∧ (∀ (planar : List (List ℚ)) (oc f c : Nat), planar ≠ [] → planar.headI ≠ [] →
        f < planar.headI.length → c < planar.length → c < oc →
      (interleave_and_convert_channels planar oc).getD (f * oc + c) 0
        = (planar.getD c []).getD f 0)
    ∧ (∀ (planar : List (List ℚ)) (oc f c : Nat), planar ≠ [] → planar.headI ≠ [] →
        f < planar.headI.length → planar.length ≤ c → c < oc →
      (interleave_and_convert_channels planar oc).getD (f * oc + c) 0
        = (planar.getD 0 []).getD f 0) := by
  refine ⟨?_, ?_, ?_, ?_, ?_, ?_⟩
  · intro samples ic oc f c hlt hf hc
    rw [convert_channels_getD samples ic oc f c (by omega) hf hc, if_pos (by omega)]
  · intro samples ic oc f c hlt hf hc
    rw [convert_channels_getD samples ic oc f c (by omega) hf (by omega), if_pos hc]
  · intro samples ic oc f c hlt hf hic hc
    rw [convert_channels_getD samples ic oc f c (by omega) hf hc, if_neg (by omega)]
  · intro planar oc f c hoc hh hf hc
    have hp : planar ≠ [] := by
      intro h
      rw [h] at hoc
      simp at hoc
    rw [interleave_and_convert_channels_getD planar oc f c hp hh hf hc, if_pos (by omega)]
  · intro planar oc f c hp hh hf hcl hc
    rw [interleave_and_convert_channels_getD planar oc f c hp hh hf hc, if_pos hcl]
  · intro planar oc f c hp hh hf hcl hc
    rw [interleave_and_convert_channels_getD planar oc f c hp hh hf hc, if_neg (by omega)]

/-- Witness for C7 (amended): stereo-to-mono keeps channel 0 of the frame,
and upmixing stereo to four channels writes channel 0 into extra channel
3. -/
theorem C7_witness :
    (convert_channels [1, 2] 2 1).getD 0 0 = ([1, 2] : List ℚ).getD 0 0
    ∧ (convert_channels [1, 2, 3, 4] 2 4).getD 3 0 = ([1, 2, 3, 4] : List ℚ).getD 0 0 := by
  have h := C7_channel_adaptation_amended
  constructor
  · have h1 := h.1 [1, 2] 2 1 0 0 (by norm_num) (by norm_num) (by norm_num)
    simpa using h1
  · have h2 := h.2.2.1 [1, 2, 3, 4] 2 4 0 3 (by norm_num) (by norm_num)
      (by norm_num) (by norm_num)
    simpa using h2

/-- A LUFS value accepted by a segment is strictly above the `-70` silence
threshold. -/
theorem segment_accepted_gt_neg70 (sample_rate channels : Nat) (s : Segment) (l : ℚ)
    (h : segment_accepted sample_rate channels s = some l) : -70 < l := by
  unfold segment_accepted at h
  split at h
  · split at h
    · split at h
      · rename_i h70
        injection h with h'
        rw [← h']
        exact h70
      · cases h
    · cases h
  · cases h

/-- C8: when the accepted per-segment LUFS list `L1..Ln` of the sampled
analysis is non-empty (segments with under 400 ms of valid audio or at or
below `-70` LUFS having been discarded — every accepted value is above
`-70`), the reported integrated loudness is the linear-power-domain mean
converted back to LUFS: `10 * log10((Σ 10^(Li/10)) / n)`. -/
theorem C8_power_domain_average (full : Except String ℝ) (dur : ℤ)
    (sample_rate channels : Nat) (segs : List Segment) (ls : List ℚ)
    (h30 : 30000 ≤ dur)
    (hacc : accepted_lufs sample_rate channels segs = ls) (hne : ls ≠ []) :
    analyze_loudness_sampled full dur sample_rate channels segs
      = Except.ok (10 * Real.logb 10
          ((ls.map fun lufs => (10 : ℝ) ^ ((lufs : ℝ) / 10)).sum / (ls.length : ℝ)))
    ∧ ∀ lufs ∈ ls, (-70 : ℚ) < lufs := by
  have h1 : ¬ dur < 30000 := by omega
  have h2 : ¬ (dur - 2 * 5000 - 8000 ≤ 0) := by omega
  constructor
  · unfold analyze_loudness_sampled
    rw [if_neg h1, if_neg h2, hacc, if_neg hne]
  · intro lufs hl
    rw [← hacc] at hl
    rcases List.mem_filterMap.mp hl with ⟨s, _, hs⟩
    exact segment_accepted_gt_neg70 sample_rate channels s lufs hs

/-- Witness for C8: one accepted segment measured at `-20` LUFS on a 40 s
track yields the power-mean formula applied to the singleton list. -/
theorem C8_witness :
    analyze_loudness_sampled (Except.ok 0) 40000 1000 1
        [Segment.mk true 1000 (some (-20))]
      = Except.ok (10 * Real.logb 10
          (([(-20 : ℚ)].map fun lufs => (10 : ℝ) ^ ((lufs : ℝ) / 10)).sum
            / (([(-20 : ℚ)].length : ℕ) : ℝ)))
    ∧ ∀ lufs ∈ ([(-20 : ℚ)] : List ℚ), (-70 : ℚ) < lufs := by
  have h := C8_power_domain_average (Except.ok 0) 40000 1000 1
    [Segment.mk true 1000 (some (-20))]
    [(-20 : ℚ)] (by norm_num) (by decide) (by decide)
  exact ⟨h.1, h.2⟩

/-- C9: above the 30 s sampling threshold, `analyze_loudness_sampled`
skips every segment whose seek failed, errors out exactly when no segment
was accepted, and succeeds as soon as at least one segment yields a valid
loudness measurement. -/
theorem C9_sampled_error_iff_all_segments_fail (full : Except String ℝ) (dur : ℤ)
    (sample_rate channels : Nat) (segs : List Segment) (h : 30000 ≤ dur) :
    (analyze_loudness_sampled full dur sample_rate channels segs
        = Except.error ("No valid segments could be analyzed")
      ↔ ∀ s ∈ segs, segment_accepted sample_rate channels s = none)
    ∧ ((∃ s ∈ segs, segment_accepted sample_rate channels s ≠ none)
      ↔ ∃ lufs, analyze_loudness_sampled full dur sample_rate channels segs
          = Except.ok lufs)
    ∧ (∀ s : Segment, s.seek_ok = false → segment_accepted sample_rate channels s = none) := by
  have h1 : ¬ dur < 30000 := by omega
  have h2 : ¬ (dur - 2 * 5000 - 8000 ≤ 0) := by omega
  unfold analyze_loudness_sampled
  rw [if_neg h1, if_neg h2]
  refine ⟨?_, ?_, ?_⟩
  · constructor
    · intro he
      by_cases hnil : accepted_lufs sample_rate channels segs = []
      · have hnil' : segs.filterMap (segment_accepted sample_rate channels) = [] := hnil
        exact List.filterMap_eq_nil_iff.mp hnil'
      · rw [if_neg hnil] at he
        cases he
    · intro hall
      have hnil : accepted_lufs sample_rate channels segs = [] :=
        List.filterMap_eq_nil_iff.mpr hall
      rw [if_pos hnil]
  · constructor
    · rintro ⟨s, hs, hne⟩
      have hnil : accepted_lufs sample_rate channels segs ≠ [] := by
        intro hn
        have hn' : segs.filterMap (segment_accepted sample_rate channels) = [] := hn
        exact hne (List.filterMap_eq_nil_iff.mp hn' s hs)
      rw [if_neg hnil]
      exact ⟨_, rfl⟩
    · rintro ⟨lufs, hl⟩
      by_cases hnil : accepted_lufs sample_rate channels segs = []
      · rw [if_pos hnil] at hl
        cases hl
      · rcases List.exists_mem_of_ne_nil _ hnil with ⟨l, hlmem⟩
        have hlmem' : l ∈ segs.filterMap (segment_accepted sample_rate channels) := hlmem
        rcases List.mem_filterMap.mp hlmem' with ⟨s, hs, hacc⟩
        exact ⟨s, hs, by rw [hacc]; exact Option.some_ne_none l⟩
  · intro s hsk
    unfold segment_accepted
    rw [if_neg]
    intro hcond
    rw [hsk] at hcond
    exact Bool.false_ne_true hcond.1

/-- Witness for C9: a single successfully measured segment on a 30 s track
makes the analysis succeed. -/
theorem C9_witness :
    ∃ lufs, analyze_loudness_sampled (Except.ok 0) 30000 1000 1
        [{ seek_ok := true, samples_decoded := 1000, measured := some (-20) }]
      = Except.ok lufs := by
  have h := C9_sampled_error_iff_all_segments_fail (Except.ok 0) 30000 1000 1
    [{ seek_ok := true, samples_decoded := 1000, measured := some (-20) }] (by norm_num)
  exact h.2.1.mp
    ⟨{ seek_ok := true, samples_decoded := 1000, measured := some (-20) },
      by decide, by decide⟩

end Musicsloth
